import Mathlib

/-!
otel-demo: the wiring in `main.go`.

A shallow embedding of `src/main.go`:

* `newResource` (lines 114-126) with the attribute sets it builds and merges;
* `newWriterExporter` (lines 90-99) with the options it passes;
* `newJaegerExporter` (lines 101-105);
* `main` (lines 18-88) as a function from what the environment decides (the
  exporter constructor's result, the library's resource merge and default
  resource, what the `select` receives, the result of `Shutdown`) to the ordered list of observable
  calls and the way the process ends.

The tracing library and the Go runtime are not part of the repository. The
parts of them the program relies on are modelled next to their callers and
are marked as such.
-/

namespace OtelDemo

/-! ## Attributes and resources -/

/-- Go `error` values; `nil` is `none` in an `Option Error`. -/
abbrev Error := String

/-- Typed attribute values (string / int / bool). -/
inductive Value where
  | str (s : String)
  | int (i : Int)
  | bool (b : Bool)
  deriving DecidableEq, Repr

/-- An `attribute.KeyValue`. -/
abbrev KeyValue := String × Value

/-- An attribute set: key/value pairs, kept ordered by key by `put`. -/
abbrev AttrSet := List KeyValue

/-- Value stored under key `k`: the first pair with that key. -/
def get? (k : String) : AttrSet → Option Value
  | [] => none
  | (k0, v0) :: rest => if k = k0 then some v0 else get? k rest

/-- Whether the set holds key `k`. -/
def has (k : String) (s : AttrSet) : Bool := (get? k s).isSome

/-- Lexicographic order on character lists, by code point. -/
def ltChars : List Char → List Char → Bool
  | _, [] => false
  | [], _ :: _ => true
  | a :: as, b :: bs =>
    if a.toNat < b.toNat then true
    else if a.toNat = b.toNat then ltChars as bs
    else false

/-- The order of attribute keys: Go compares strings bytewise, which on
UTF-8 text is the order of the code points. -/
def keyLt (a b : String) : Bool := ltChars a.data b.data

/-- Store `v` under `k`, replacing what was stored there, keeping key order. -/
def put (k : String) (v : Value) : AttrSet → AttrSet
  | [] => [(k, v)]
  | (k0, v0) :: rest =>
    if keyLt k k0 then (k, v) :: (k0, v0) :: rest
    else if k = k0 then (k, v) :: rest
    else (k0, v0) :: put k v rest

/-- Modelled from the spec: the attribute-set constructor of the tracing
library is not under src/. Per the data model a resource is a mapping from
key to value, later values overriding earlier ones on key collision. -/
def NewSet (kvs : List KeyValue) : AttrSet :=
  kvs.foldl (fun acc kv => put kv.1 kv.2 acc) []

/-- Modelled from the spec: the merge of section 4.1, `merge(base, overlay)`,
is library code that is not under src/. Every pair of the overlay is stored
into the base, so the overlay wins on a key both have. -/
def merge (base overlay : AttrSet) : AttrSet :=
  overlay.foldr (fun kv acc => put kv.1 kv.2 acc) base

/-- A `*resource.Resource`: the schema URL handed to
`resource.NewWithAttributes` (line 119) and the attribute set. -/
structure Resource where
  schemaURL : String
  attrs : AttrSet
  deriving DecidableEq, Repr

/-- The library's `resource.Empty()`. -/
def Empty : Resource := ⟨"", []⟩

/-- The library's `resource.NewWithAttributes(schemaURL, attrs...)`. -/
def NewWithAttributes (schemaURL : String) (kvs : List KeyValue) : Resource :=
  ⟨schemaURL, NewSet kvs⟩

/-- The error the library's `resource.Merge` reports on a schema URL
conflict. -/
def errMergeConflictSchemaURL : Error :=
  "cannot merge resource due to conflicting Schema URL"

/-- One `resource.Merge` that `newResource` can be linked with: that of the
tracing library's releases v1.14 to v1.22. It is library code, not under
src/, and the spec does not describe it (the merge of the spec is `merge`,
on attribute sets). The attributes are merged with the overlay winning; when
both schema URLs are non-empty and differ the result is the empty resource
and an error. -/
def MergeEmptyOnConflict (a b : Resource) : Resource × Option Error :=
  if a.schemaURL = "" then (⟨b.schemaURL, merge a.attrs b.attrs⟩, none)
  else if b.schemaURL = "" then (⟨a.schemaURL, merge a.attrs b.attrs⟩, none)
  else if a.schemaURL = b.schemaURL then (⟨a.schemaURL, merge a.attrs b.attrs⟩, none)
  else (Empty, some errMergeConflictSchemaURL)

/-- The constant `semconv.SchemaURL` of package `semconv/v1.18.0` (line 11). -/
def SchemaURL : String := "https://opentelemetry.io/schemas/1.18.0"

/-- `semconv.ServiceName(v)`. -/
def ServiceName (v : String) : KeyValue := ("service.name", .str v)

/-- `semconv.ServiceVersion(v)`. -/
def ServiceVersion (v : String) : KeyValue := ("service.version", .str v)

/-- `attribute.String(k, v)`. -/
def attributeString (k v : String) : KeyValue := (k, .str v)

/-- The second argument of `resource.Merge` at lines 118-123. -/
def appResource : Resource :=
  NewWithAttributes SchemaURL
    [ServiceName "fib", ServiceVersion "v0.1.0", attributeString "environment" "demo"]

/-- `newResource` (lines 115-126): `r, _ := resource.Merge(resource.Default(), ...)`
followed by `return r`. Both library calls are arguments: `Merge` is the
library's `resource.Merge`, which line 116 shows returning a resource and an
error, and `dflt` is what `resource.Default()` returns, computed by the
library from the host and process it runs in. -/
def newResource (Merge : Resource → Resource → Resource × Option Error)
    (dflt : Resource) : Resource :=
  (Merge dflt appResource).1

/-- A `resource.Default()` as release v1.14.0 of the library builds it: its
own schema URL, that of semantic conventions 1.17.0, with the service name
and SDK attributes it fills in. -/
def sdkDefaultResource : Resource :=
  ⟨"https://opentelemetry.io/schemas/1.17.0",
   [("service.name", .str "unknown_service:otel-demo"),
    ("telemetry.sdk.language", .str "go"),
    ("telemetry.sdk.name", .str "opentelemetry"),
    ("telemetry.sdk.version", .str "1.14.0")]⟩

/-! ## Spans and the writer exporter -/

/-- A `time.Time`, counted from the zero time. -/
abbrev Time := Nat

/-- The zero `time.Time`. -/
def zeroTime : Time := 0

/-- Span status: unset, error or ok. -/
inductive StatusCode where
  | unset
  | error
  | ok
  deriving DecidableEq, Repr

/-- One of the ordered events of a span. -/
structure SpanEvent where
  name : String
  time : Time
  deriving DecidableEq, Repr

/-- A finished span, as an exporter receives it. -/
structure Span where
  traceID : Nat
  spanID : Nat
  parentID : Option Nat
  name : String
  startTime : Time
  endTime : Time
  attributes : AttrSet
  status : StatusCode
  events : List SpanEvent
  resource : Resource
  deriving DecidableEq, Repr

/-- The record the writer exporter encodes for one span. -/
structure SpanStub where
  traceID : Nat
  spanID : Nat
  parentID : Option Nat
  name : String
  startTime : Time
  endTime : Time
  attributes : AttrSet
  status : StatusCode
  events : List SpanEvent
  resource : Resource
  deriving DecidableEq, Repr

/-- An `io.Writer`, named by its descriptor. -/
abbrev Writer := Nat

/-- The writer `os.Stdout`. -/
def osStdout : Writer := 1

/-- The configuration of the `stdouttrace` exporter. -/
structure Config where
  writer : Writer
  prettyPrint : Bool
  timestamps : Bool
  deriving DecidableEq, Repr

/-- The configuration `stdouttrace.New` starts from. -/
def defaultConfig : Config := ⟨osStdout, false, true⟩

/-- `stdouttrace.WithWriter(w)` (line 93). -/
def WithWriter (w : Writer) (c : Config) : Config := { c with writer := w }

/-- `stdouttrace.WithPrettyPrint()` (line 95). -/
def WithPrettyPrint (c : Config) : Config := { c with prettyPrint := true }

/-- `stdouttrace.WithoutTimestamps()` (line 97): "Do not print timestamps for
the demo". -/
def WithoutTimestamps (c : Config) : Config := { c with timestamps := false }

/-- A span exporter: the Jaeger exporter for a collector endpoint, or the
`stdouttrace` exporter with its configuration. -/
inductive SpanExporter where
  | jaeger (endpoint : String)
  | stdouttrace (cfg : Config)
  deriving DecidableEq, Repr

/-- Modelled from the spec: `stdouttrace.New` is library code that is not
under src/. It applies the options in order to the default configuration
and builds the writer exporter of section 4.2. -/
def stdouttraceNew (options : List (Config → Config)) : Except Error SpanExporter :=
  .ok (.stdouttrace (options.foldl (fun c o => o c) defaultConfig))

/-- `newWriterExporter` (lines 91-99). -/
def newWriterExporter (w : Writer) : Except Error SpanExporter :=
  stdouttraceNew [WithWriter w, WithPrettyPrint, WithoutTimestamps]

/-- The record of a span before the exporter's configuration is applied. -/
def SpanStubFromReadOnlySpan (s : Span) : SpanStub :=
  { traceID := s.traceID, spanID := s.spanID, parentID := s.parentID, name := s.name,
    startTime := s.startTime, endTime := s.endTime, attributes := s.attributes,
    status := s.status, events := s.events, resource := s.resource }

/-- Modelled from the spec: the record the writer exporter writes for a span
(sections 4.2 and 6); the exporter is library code that is not under src/.
What the timestamps option does is taken from the source, lines 96-97 ("Do
not print timestamps for the demo"): without timestamps the record does not
show the times of the span, and the start time, the end time and the event
times are written as the zero time. -/
def encode (cfg : Config) (s : Span) : SpanStub :=
  let stub := SpanStubFromReadOnlySpan s
  if cfg.timestamps then stub
  else { stub with
    startTime := zeroTime, endTime := zeroTime,
    events := stub.events.map (fun ev => { ev with time := zeroTime }) }

/-- Modelled from the spec: `export(batch)` of section 4.2, as the list of
records written and the writer each goes to. The Jaeger exporter sends to its
collector and writes to no writer. -/
def ExportSpans (e : SpanExporter) (batch : List Span) : List (Writer × SpanStub) :=
  match e with
  | .jaeger _ => []
  | .stdouttrace cfg => batch.map (fun s => (cfg.writer, encode cfg s))

/-- The records written when `batch` is exported through what
`newWriterExporter w` returns; nothing when the constructor fails. -/
def writtenBy (w : Writer) (batch : List Span) : List (Writer × SpanStub) :=
  match newWriterExporter w with
  | .ok e => ExportSpans e batch
  | .error _ => []

/-! ## The batching span processor -/

/-- Modelled from the spec: the batching span processor of section 4.3 is
library code that is not under src/. It holds the maximum batch size, the
queue of ended spans, the batches handed to `export` so far (oldest first)
and whether it has been shut down. -/
structure BatchSpanProcessor where
  maxExportBatchSize : Nat
  queue : List Span
  exported : List (List Span)
  shutDown : Bool
  deriving DecidableEq, Repr

/-- Modelled from the spec: a processor as constructed, idle and empty. -/
def NewBatchSpanProcessor (maxExportBatchSize : Nat) : BatchSpanProcessor :=
  ⟨maxExportBatchSize, [], [], false⟩

/-- Modelled from the spec: a flush "drains the current queue into one batch,
invokes the Exporter's export", and with an empty queue does not invoke the
exporter (sections 4.3 and 8). -/
def flush (p : BatchSpanProcessor) : BatchSpanProcessor :=
  if p.queue.isEmpty then p
  else { p with queue := [], exported := p.exported ++ [p.queue] }

/-- Modelled from the spec: `onSpanEnd(span)` "appends to an internal bounded
queue; if queue reaches a configured maximum size, triggers an immediate
flush"; after shutdown the span is not accepted. -/
def onSpanEnd (p : BatchSpanProcessor) (s : Span) : BatchSpanProcessor :=
  if p.shutDown then p
  else
    let p1 := { p with queue := p.queue ++ [s] }
    if p.maxExportBatchSize ≤ p1.queue.length then flush p1 else p1

/-- Modelled from the spec: `shutdown()` "performs a final forced flush" and
leaves the processor shut down; a second call changes nothing. -/
def shutdown (p : BatchSpanProcessor) : BatchSpanProcessor :=
  if p.shutDown then p else { flush p with shutDown := true }

/-- The export calls made when `spans` end in this order on a fresh processor
with maximum batch size `m`, which is then shut down. -/
def exportCalls (m : Nat) (spans : List Span) : List (List Span) :=
  (shutdown (spans.foldl onSpanEnd (NewBatchSpanProcessor m))).exported

/-- A span with the given name and nothing else set. -/
def spanNamed (name : String) : Span :=
  { traceID := 0, spanID := 0, parentID := none, name := name, startTime := 0,
    endTime := 0, attributes := [], status := .unset, events := [], resource := Empty }

/-! ## The tracer provider and `main` -/

/-- The options `main` passes to `tracesdk.NewTracerProvider` (lines 56-57). -/
inductive TracerProviderOption where
  | WithBatcher (e : SpanExporter)
  | WithResource (r : Resource)
  deriving DecidableEq, Repr

/-- A tracer provider: the exporters behind its batching processors, in
registration order, and its resource when one was given. -/
structure TracerProvider where
  batchers : List SpanExporter
  resource : Option Resource
  deriving DecidableEq, Repr

/-- `tracesdk.NewTracerProvider(options...)`: the options applied in order. -/
def NewTracerProvider (options : List TracerProviderOption) : TracerProvider :=
  options.foldl
    (fun tp o =>
      match o with
      | .WithBatcher e => { tp with batchers := tp.batchers ++ [e] }
      | .WithResource r => { tp with resource := some r })
    ⟨[], none⟩

/-- What the `select` of lines 79-87 receives: the interrupt on `sigCh`, the
result of `app.Run` on `errCh`, or nothing ever. -/
inductive Received where
  | interrupt
  | result (err : Option Error)
  | nothing
  deriving DecidableEq, Repr

/-- What one execution of `main` is given from outside: the error of
`jaeger.New` for an endpoint, the library's `resource.Merge` and
`resource.Default()`, what the `select` receives, and the error of
`tp.Shutdown`. -/
structure Env where
  jaegerNew : String → Option Error
  resourceMerge : Resource → Resource → Resource × Option Error
  defaultResource : Resource
  received : Received
  shutdownResult : Option Error

/-- The observable calls of `main`. -/
inductive Call where
  | jaegerNew (url : String)
  | newTracerProvider (tp : TracerProvider)
  | setTracerProvider (tp : TracerProvider)
  | signalNotify
  | goAppRun
  | println (s : String)
  | fatal (e : Error)
  | shutdown (tp : TracerProvider)
  deriving DecidableEq, Repr

/-- How a function body stops: it returns, the process exits with a status,
or it blocks for ever. -/
inductive Flow where
  | returned
  | exited (code : Nat)
  | blocked
  deriving DecidableEq, Repr

/-- How the process ends: with an exit status, or never. -/
inductive Ending where
  | exit (code : Nat)
  | blocked
  deriving DecidableEq, Repr

/-- The endpoint of line 33. -/
def JaegerURI : String := "http://localhost:14268/api/traces"

/-- `newJaegerExporter` (lines 102-105): the result of `jaeger.New` for the
collector endpoint `url`. -/
def newJaegerExporter (env : Env) (url : String) : Except Error SpanExporter :=
  match env.jaegerNew url with
  | some e => .error e
  | none => .ok (.jaeger url)

/-- `l.Fatal(e)`: Go's `log.Fatal` prints and calls `os.Exit(1)`, which ends
the process at once; deferred functions are not run. -/
def logFatal (calls : List Call) (e : Error) : List Call × Flow :=
  (calls ++ [.fatal e], .exited 1)

/-- The deferred function of lines 60-64. -/
def deferredShutdown (env : Env) (tp : TracerProvider) (calls : List Call) :
    List Call × Flow :=
  match env.shutdownResult with
  | some e => logFatal (calls ++ [.shutdown tp]) e
  | none => (calls ++ [.shutdown tp], .returned)

/-- Lines 68-87 of `main`: what follows the `defer` statement. -/
def mainBody (env : Env) (tp : TracerProvider) (calls : List Call) : List Call × Flow :=
  let calls := calls ++ [.setTracerProvider tp, .signalNotify, .goAppRun]
  match env.received with
  | .interrupt => (calls ++ [.println "\ngoodbye"], .returned)
  | .result (some e) => logFatal calls e
  | .result none => (calls, .returned)
  | .nothing => (calls, .blocked)

/-- `main` (lines 18-88) up to its return: the calls made, in order. A deferred
function runs when the surrounding function returns, and only then. -/
def runMain (env : Env) : List Call × Flow :=
  match newJaegerExporter env JaegerURI with
  | .error e => logFatal [.jaegerNew JaegerURI] e
  | .ok exp =>
    let tp := NewTracerProvider
      [.WithBatcher exp, .WithResource (newResource env.resourceMerge env.defaultResource)]
    match mainBody env tp [.jaegerNew JaegerURI, .newTracerProvider tp] with
    | (calls, .returned) => deferredShutdown env tp calls
    | stopped => stopped

/-- The program: the calls of `main` and how the process ends. When `main`
returns the process exits with status 0. -/
def main (env : Env) : List Call × Ending :=
  match runMain env with
  | (calls, .returned) => (calls, .exit 0)
  | (calls, .exited c) => (calls, .exit c)
  | (calls, .blocked) => (calls, .blocked)

/-- Whether a call is `tp.Shutdown`. -/
def isShutdown : Call → Bool
  | .shutdown _ => true
  | _ => false

/-- Whether a call is `l.Fatal`. -/
def isFatal : Call → Bool
  | .fatal _ => true
  | _ => false

/-- Whether a call is `otel.SetTracerProvider`. -/
def isSetTracerProvider : Call → Bool
  | .setTracerProvider _ => true
  | _ => false

/-- The provider `main` builds at lines 55-58. -/
def mainProvider (env : Env) : TracerProvider :=
  NewTracerProvider
    [.WithBatcher (.jaeger JaegerURI), .WithResource (newResource env.resourceMerge env.defaultResource)]

/-- The calls of `main` up to and including the start of the application. -/
def startupCalls (env : Env) : List Call :=
  [.jaegerNew JaegerURI, .newTracerProvider (mainProvider env),
   .setTracerProvider (mainProvider env), .signalNotify, .goAppRun]

/-- An execution in which the exporter is built, no interrupt arrives,
`app.Run` returns the error "boom" and `Shutdown` would succeed. -/
def envAppError : Env :=
  { jaegerNew := fun _ => none, resourceMerge := MergeEmptyOnConflict,
    defaultResource := ⟨"", []⟩,
    received := .result (some "boom"), shutdownResult := none }

/-- An execution interrupted while the application runs. -/
def envInterrupt : Env :=
  { jaegerNew := fun _ => none, resourceMerge := MergeEmptyOnConflict,
    defaultResource := ⟨"", []⟩,
    received := .interrupt, shutdownResult := none }

/-- An execution in which `app.Run` returns `nil`. -/
def envAppDone : Env :=
  { jaegerNew := fun _ => none, resourceMerge := MergeEmptyOnConflict,
    defaultResource := ⟨"", []⟩,
    received := .result none, shutdownResult := none }

/-- An execution in which `jaeger.New` rejects the endpoint. -/
def envBadEndpoint : Env :=
  { jaegerNew := fun _ => some "invalid collector endpoint",
    resourceMerge := MergeEmptyOnConflict, defaultResource := ⟨"", []⟩, received := .interrupt, shutdownResult := none }

/-! ## Resources: lookup after `put` and `merge` -/

theorem get?_put (k k1 : String) (v : Value) (s : AttrSet) :
    get? k1 (put k v s) = if k1 = k then some v else get? k1 s := by
  induction s with
  | nil => simp [put, get?]
  | cons kv rest ih =>
    obtain ⟨k0, v0⟩ := kv
    by_cases hlt : keyLt k k0 = true
    · simp [put, hlt, get?]
    · by_cases hk : k = k0
      · subst hk
        simp only [put, hlt, get?]
        by_cases h1 : k1 = k <;> simp [h1]
      · simp only [put, hlt, hk, get?, ih]
        by_cases h1 : k1 = k
        · subst h1
          simp [hk]
        · simp [h1]

theorem get?_merge (k : String) (base overlay : AttrSet) :
    get? k (merge base overlay) =
      match get? k overlay with
      | some v => some v
      | none => get? k base := by
  induction overlay with
  | nil => simp [merge, get?]
  | cons kv rest ih =>
    obtain ⟨k0, v0⟩ := kv
    have hstep : merge base ((k0, v0) :: rest) = put k0 v0 (merge base rest) := rfl
    rw [hstep, get?_put, ih]
    by_cases h : k = k0 <;> simp [get?, h]

theorem appResource_attrs :
    appResource.attrs =
      [("environment", .str "demo"), ("service.name", .str "fib"),
       ("service.version", .str "v0.1.0")] := by
  decide

/-! ## Claims about `newResource` and `merge` -/

/-- Whenever the merge hands back the overlay-wins attributes, the resource
`newResource` returns maps `service.name` to "fib", `service.version` to
"v0.1.0" and `environment` to "demo", and every other key to what the default
resource maps it to. -/
theorem newResource_of_overlay_merge
    (Merge : Resource → Resource → Resource × Option Error) (d : Resource)
    (h : (Merge d appResource).1.attrs = merge d.attrs appResource.attrs) :
    get? "service.name" (newResource Merge d).attrs = some (.str "fib") ∧
    get? "service.version" (newResource Merge d).attrs = some (.str "v0.1.0") ∧
    get? "environment" (newResource Merge d).attrs = some (.str "demo") ∧
    ∀ k, k ≠ "service.name" → k ≠ "service.version" → k ≠ "environment" →
      get? k (newResource Merge d).attrs = get? k d.attrs := by
  have hm : (newResource Merge d).attrs = merge d.attrs appResource.attrs := h
  rw [hm, appResource_attrs]
  refine ⟨?_, ?_, ?_, ?_⟩
  · rw [get?_merge]; simp [get?]
  · rw [get?_merge]; simp [get?]
  · rw [get?_merge]; simp [get?]
  · intro k h1 h2 h3
    rw [get?_merge]
    simp [get?, h1, h2, h3]

/-- C5 at its failing input: `resource.Default()` carries the schema URL of
semantic conventions 1.17.0 (library release v1.14.0) and the merge with the
application's resource, which carries that of 1.18.0, reports a schema URL
conflict. `newResource` drops the error and returns the empty resource: it
maps none of `service.name`, `service.version` and `environment`, and the
attributes of the default resource are gone as well. -/
theorem newResource_schema_conflict_loses_attributes :
    (MergeEmptyOnConflict sdkDefaultResource appResource).2 =
      some errMergeConflictSchemaURL ∧
    newResource MergeEmptyOnConflict sdkDefaultResource = Empty ∧
    get? "service.name" (newResource MergeEmptyOnConflict sdkDefaultResource).attrs = none ∧
    get? "service.version" (newResource MergeEmptyOnConflict sdkDefaultResource).attrs = none ∧
    get? "environment" (newResource MergeEmptyOnConflict sdkDefaultResource).attrs = none ∧
    get? "telemetry.sdk.language" sdkDefaultResource.attrs = some (.str "go") ∧
    get? "telemetry.sdk.language"
      (newResource MergeEmptyOnConflict sdkDefaultResource).attrs = none := by
  decide

/-- C6: for all attribute sets `base` and `overlay` and every key `k`,
`merge base overlay` has `k` exactly when `base` or `overlay` has it, and its
value at `k` is the overlay's when the overlay has `k` and the base's
otherwise; and `merge {a:1} {a:2, b:3} = {a:2, b:3}`. -/
theorem merge_overlay_wins (base overlay : AttrSet) (k : String) :
    (has k (merge base overlay) = (has k base || has k overlay)) ∧
    (get? k (merge base overlay) =
      match get? k overlay with
      | some v => some v
      | none => get? k base) ∧
    merge [("a", .int 1)] [("a", .int 2), ("b", .int 3)] =
      [("a", .int 2), ("b", .int 3)] := by
  refine ⟨?_, get?_merge k base overlay, by decide⟩
  simp only [has, get?_merge]
  cases get? k overlay <;> cases get? k base <;> rfl

/-- C10: `newResource` never reports a failure and discards the merge error.
Whatever pair `(r, err)` the merge of the default resource with the
application's attributes yields, `newResource` returns exactly `r`; the
result is the same for any other error that comes with `r`, so nothing in it
tells whether the merge failed; and when the merge failed, every key the
failure-path resource `r` lacks is lacking in what the caller receives. -/
theorem newResource_discards_merge_error
    (Merge : Resource → Resource → Resource × Option Error) (d r : Resource)
    (err : Option Error) (h : Merge d appResource = (r, err)) :
    newResource Merge d = r ∧
    (∀ (Merge2 : Resource → Resource → Resource × Option Error) (err2 : Option Error),
      Merge2 d appResource = (r, err2) → newResource Merge2 d = newResource Merge d) ∧
    (err ≠ none → ∀ k, get? k r.attrs = none →
      get? k (newResource Merge d).attrs = none) := by
  have h1 : newResource Merge d = r := by simp [newResource, h]
  refine ⟨h1, ?_, ?_⟩
  · intro Merge2 err2 h2
    simp [newResource, h, h2]
  · intro _ k hk
    rw [h1]
    exact hk

/-- Witness: the merge of releases v1.14 to v1.22 on the default resource of
release v1.14.0 fails with a schema URL conflict, and the caller receives the
empty resource, without `service.name`. -/
theorem newResource_discards_merge_error_witness :
    MergeEmptyOnConflict sdkDefaultResource appResource =
      (Empty, some errMergeConflictSchemaURL) ∧
    newResource MergeEmptyOnConflict sdkDefaultResource = Empty ∧
    get? "service.name" (newResource MergeEmptyOnConflict sdkDefaultResource).attrs = none :=
  ⟨by decide,
   (newResource_discards_merge_error MergeEmptyOnConflict sdkDefaultResource Empty
      (some errMergeConflictSchemaURL) (by decide)).1,
   (newResource_discards_merge_error MergeEmptyOnConflict sdkDefaultResource Empty
      (some errMergeConflictSchemaURL) (by decide)).2.2 (by decide) "service.name" rfl⟩

/-! ## The writer exporter -/

theorem newWriterExporter_eq (w : Writer) :
    newWriterExporter w = .ok (.stdouttrace ⟨w, true, false⟩) := rfl

theorem writtenBy_eq (w : Writer) (batch : List Span) :
    writtenBy w batch = batch.map (fun s => (w, encode ⟨w, true, false⟩ s)) := rfl

/-- C9, as the code has it: for every writer `w` and every batch of finished
spans exported through what `newWriterExporter w` returns, one record per
span is written to `w`, in order, carrying the trace-id, span-id, parent-id,
name, attributes and status of its span, with the start and end time set to
the zero time (the exporter is built with `WithoutTimestamps`). -/
theorem writer_record_fields (w : Writer) (batch : List Span) :
    List.Forall₂
      (fun s wr =>
        wr.1 = w ∧ wr.2.traceID = s.traceID ∧ wr.2.spanID = s.spanID ∧
        wr.2.parentID = s.parentID ∧ wr.2.name = s.name ∧
        wr.2.attributes = s.attributes ∧ wr.2.status = s.status ∧
        wr.2.startTime = zeroTime ∧ wr.2.endTime = zeroTime)
      batch (writtenBy w batch) := by
  rw [writtenBy_eq]
  induction batch with
  | nil => exact List.Forall₂.nil
  | cons s rest ih =>
    refine List.Forall₂.cons ?_ ih
    simp [encode, SpanStubFromReadOnlySpan]

/-- C9 as stated fails: a span that started at 5 and ended at 9, exported to
writer 3 through what `newWriterExporter 3` returns, is written as one record
whose start and end time are the zero time, not the span's. -/
theorem writer_record_times_not_the_spans :
    ∃ stub,
      writtenBy 3 [{ spanNamed "fib" with startTime := 5, endTime := 9 }] = [(3, stub)] ∧
      stub.name = "fib" ∧
      stub.startTime ≠ ({ spanNamed "fib" with startTime := 5, endTime := 9 } : Span).startTime ∧
      stub.endTime ≠ ({ spanNamed "fib" with startTime := 5, endTime := 9 } : Span).endTime :=
  ⟨_, rfl, rfl, by decide, by decide⟩

/-! ## `main` -/

theorem runMain_exporter_error (env : Env) (e : Error)
    (h : env.jaegerNew JaegerURI = some e) :
    runMain env = ([.jaegerNew JaegerURI, .fatal e], .exited 1) := by
  simp [runMain, newJaegerExporter, h, logFatal]

theorem runMain_started (env : Env) (h : env.jaegerNew JaegerURI = none) :
    runMain env =
      match env.received with
      | .interrupt =>
        deferredShutdown env (mainProvider env)
          (startupCalls env ++ [.println "\ngoodbye"])
      | .result (some e) => (startupCalls env ++ [.fatal e], .exited 1)
      | .result none => deferredShutdown env (mainProvider env) (startupCalls env)
      | .nothing => (startupCalls env, .blocked) := by
  simp only [runMain, newJaegerExporter, h, mainBody]
  cases hr : env.received with
  | interrupt => simp [startupCalls, mainProvider]
  | result r =>
    cases r with
    | none => simp [startupCalls, mainProvider]
    | some e => simp [startupCalls, mainProvider, logFatal]
  | nothing => simp [startupCalls, mainProvider]

theorem main_interrupt (env : Env) (h : env.jaegerNew JaegerURI = none)
    (hr : env.received = .interrupt) :
    main env =
      match env.shutdownResult with
      | none =>
        (startupCalls env ++ [.println "\ngoodbye", .shutdown (mainProvider env)], .exit 0)
      | some e =>
        (startupCalls env ++
          [.println "\ngoodbye", .shutdown (mainProvider env), .fatal e], .exit 1) := by
  simp only [main, runMain_started env h, hr, deferredShutdown]
  cases env.shutdownResult <;> simp [logFatal]

theorem main_result_nil (env : Env) (h : env.jaegerNew JaegerURI = none)
    (hr : env.received = .result none) :
    main env =
      match env.shutdownResult with
      | none => (startupCalls env ++ [.shutdown (mainProvider env)], .exit 0)
      | some e => (startupCalls env ++ [.shutdown (mainProvider env), .fatal e], .exit 1) := by
  simp only [main, runMain_started env h, hr, deferredShutdown]
  cases env.shutdownResult <;> simp [logFatal]

theorem main_result_error (env : Env) (e : Error) (h : env.jaegerNew JaegerURI = none)
    (hr : env.received = .result (some e)) :
    main env = (startupCalls env ++ [.fatal e], .exit 1) := by
  simp only [main, runMain_started env h, hr]

theorem main_nothing (env : Env) (h : env.jaegerNew JaegerURI = none)
    (hr : env.received = .nothing) :
    main env = (startupCalls env, .blocked) := by
  simp only [main, runMain_started env h, hr]

theorem main_exporter_error (env : Env) (e : Error)
    (h : env.jaegerNew JaegerURI = some e) :
    main env = ([.jaegerNew JaegerURI, .fatal e], .exit 1) := by
  simp only [main, runMain_exporter_error env e h]

theorem main_calls_started (env : Env) (h : env.jaegerNew JaegerURI = none) :
    ∃ post, (main env).1 = startupCalls env ++ post ∧
      post.countP isSetTracerProvider = 0 ∧ ∀ tp, Call.setTracerProvider tp ∉ post := by
  cases hr : env.received with
  | interrupt =>
    rw [main_interrupt env h hr]
    cases env.shutdownResult <;>
      exact ⟨_, rfl, by simp [List.countP_cons, isSetTracerProvider], by simp⟩
  | result r =>
    cases r with
    | none =>
      rw [main_result_nil env h hr]
      cases env.shutdownResult <;>
        exact ⟨_, rfl, by simp [List.countP_cons, isSetTracerProvider], by simp⟩
    | some e =>
      rw [main_result_error env e h hr]
      exact ⟨_, rfl, by simp [List.countP_cons, isSetTracerProvider], by simp⟩
  | nothing =>
    rw [main_nothing env h hr]
    exact ⟨[], by simp, by simp, by simp⟩

/-! ## Claims about `main` -/

/-- C1 at its failing input: the exporter and the provider are built, no
interrupt arrives and `app.Run` returns the error "boom". The process exits
with status 1 right after `l.Fatal` and the provider's `Shutdown` is never
called, while on interrupt and on a `nil` result it is called. -/
theorem main_app_error_skips_shutdown :
    Call.newTracerProvider (mainProvider envAppError) ∈ (main envAppError).1 ∧
    (main envAppError).1.getLast? = some (.fatal "boom") ∧
    (main envAppError).2 = .exit 1 ∧
    (main envAppError).1.countP isShutdown = 0 ∧
    (main envInterrupt).1.countP isShutdown = 1 ∧
    (main envAppDone).1.countP isShutdown = 1 := by
  decide

/-- C2: when the interrupt is received before `app.Run` has delivered a
result, `main` logs "\ngoodbye", then calls the provider's `Shutdown`, exactly
once in the whole execution, and if `Shutdown` returns no error the process
exits with status 0 and no call of `l.Fatal`. -/
theorem main_interrupt_calls_shutdown (env : Env)
    (h : env.jaegerNew JaegerURI = none) (hr : env.received = .interrupt) :
    (∃ post, (main env).1 =
      startupCalls env ++ [.println "\ngoodbye", .shutdown (mainProvider env)] ++ post) ∧
    (main env).1.countP isShutdown = 1 ∧
    (env.shutdownResult = none →
      (main env).2 = .exit 0 ∧ (main env).1.countP isFatal = 0) := by
  rw [main_interrupt env h hr]
  cases hs : env.shutdownResult with
  | none =>
    exact ⟨⟨[], by simp⟩, by simp [startupCalls, List.countP_cons, isShutdown],
      fun _ => ⟨rfl, by simp [startupCalls, List.countP_cons, isFatal]⟩⟩
  | some e =>
    exact ⟨⟨[.fatal e], by simp⟩, by simp [startupCalls, List.countP_cons, isShutdown],
      fun hc => by simp at hc⟩

/-- Witness for `main_interrupt_calls_shutdown`: the interrupted execution
`envInterrupt`. -/
theorem main_interrupt_calls_shutdown_witness :
    envInterrupt.jaegerNew JaegerURI = none ∧ envInterrupt.received = .interrupt ∧
    (main envInterrupt).1.countP isShutdown = 1 ∧
    (main envInterrupt).2 = .exit 0 :=
  ⟨rfl, rfl, (main_interrupt_calls_shutdown envInterrupt rfl rfl).2.1,
    ((main_interrupt_calls_shutdown envInterrupt rfl rfl).2.2 rfl).1⟩

/-- C3: when the `select` receives the result `r` of `app.Run` (no interrupt
first), `main` ends with `l.Fatal(e)` right after starting the application,
exit status 1, exactly when `r` is the non-nil error `e`; when `r` is `nil`
no `l.Fatal` happens before `main` returns and runs the deferred `Shutdown`,
and if `Shutdown` returns no error the process exits with status 0 without
any `l.Fatal`. -/
theorem main_propagates_app_error (env : Env) (r : Option Error)
    (h : env.jaegerNew JaegerURI = none) (hr : env.received = .result r) :
    (∀ e, main env = (startupCalls env ++ [.fatal e], .exit 1) ↔ r = some e) ∧
    (r = none →
      (∃ post, (main env).1 = startupCalls env ++ [.shutdown (mainProvider env)] ++ post) ∧
      (env.shutdownResult = none →
        (main env).2 = .exit 0 ∧ (main env).1.countP isFatal = 0)) := by
  cases r with
  | some e0 =>
    rw [main_result_error env e0 h hr]
    refine ⟨fun e => ?_, fun hc => by simp at hc⟩
    simp [eq_comm]
  | none =>
    rw [main_result_nil env h hr]
    cases hs : env.shutdownResult with
    | none =>
      refine ⟨fun e => by simp, fun _ => ⟨⟨[], by simp⟩, fun _ => ⟨rfl, ?_⟩⟩⟩
      simp [startupCalls, List.countP_cons, isFatal]
    | some e1 =>
      exact ⟨fun e => by simp, fun _ => ⟨⟨[.fatal e1], by simp⟩, fun hc => by simp at hc⟩⟩

/-- Witness for `main_propagates_app_error`: the execution `envAppError`, in
which `app.Run` returns "boom". -/
theorem main_propagates_app_error_witness :
    envAppError.jaegerNew JaegerURI = none ∧
    envAppError.received = .result (some "boom") ∧
    main envAppError = (startupCalls envAppError ++ [.fatal "boom"], .exit 1) :=
  ⟨rfl, rfl,
    ((main_propagates_app_error envAppError (some "boom") rfl rfl).1 "boom").2 rfl⟩

/-- C4: when `newJaegerExporter` returns an error for the configured endpoint,
`main` calls `l.Fatal` with that error and the process exits with status 1;
no tracer provider is constructed, none is registered globally, the
application is not started and `Shutdown` is not called. -/
theorem main_exporter_error_fails_fast (env : Env) (e : Error)
    (h : newJaegerExporter env JaegerURI = .error e) :
    main env = ([.jaegerNew JaegerURI, .fatal e], .exit 1) ∧
    (∀ tp, Call.newTracerProvider tp ∉ (main env).1) ∧
    (∀ tp, Call.setTracerProvider tp ∉ (main env).1) ∧
    Call.goAppRun ∉ (main env).1 ∧
    (∀ tp, Call.shutdown tp ∉ (main env).1) := by
  have hj : env.jaegerNew JaegerURI = some e := by
    unfold newJaegerExporter at h
    cases hq : env.jaegerNew JaegerURI with
    | none => rw [hq] at h; cases h
    | some e1 => rw [hq] at h; cases h; rfl
  rw [main_exporter_error env e hj]
  simp

/-- Witness for `main_exporter_error_fails_fast`: the execution
`envBadEndpoint`. -/
theorem main_exporter_error_fails_fast_witness :
    newJaegerExporter envBadEndpoint JaegerURI = .error "invalid collector endpoint" ∧
    main envBadEndpoint =
      ([.jaegerNew JaegerURI, .fatal "invalid collector endpoint"], .exit 1) :=
  ⟨rfl, (main_exporter_error_fails_fast envBadEndpoint "invalid collector endpoint" rfl).1⟩

/-- C7: in every execution of `main`, `otel.SetTracerProvider` is called at
most once; its argument is the provider built from the batcher over the
Jaeger exporter for `JaegerURI` and from `newResource()`; and whenever the
application is started the call comes before that start and is the only
one. -/
theorem main_sets_global_provider_once (env : Env) :
    (main env).1.countP isSetTracerProvider ≤ 1 ∧
    (∀ tp, Call.setTracerProvider tp ∈ (main env).1 → tp = mainProvider env) ∧
    (mainProvider env).batchers = [.jaeger JaegerURI] ∧
    (mainProvider env).resource = some (newResource env.resourceMerge env.defaultResource) ∧
    (Call.goAppRun ∈ (main env).1 →
      ∃ pre post, (main env).1 = pre ++ [.setTracerProvider (mainProvider env)] ++ post ∧
        Call.goAppRun ∉ pre ∧ Call.goAppRun ∈ post ∧
        (main env).1.countP isSetTracerProvider = 1) := by
  refine ⟨?_, ?_, rfl, rfl, ?_⟩
  · cases hj : env.jaegerNew JaegerURI with
    | some e =>
      rw [main_exporter_error env e hj]
      simp [List.countP_cons, isSetTracerProvider]
    | none =>
      obtain ⟨post, hp, hc, _⟩ := main_calls_started env hj
      rw [hp, List.countP_append, hc]
      simp [startupCalls, List.countP_cons, isSetTracerProvider]
  · intro tp htp
    cases hj : env.jaegerNew JaegerURI with
    | some e =>
      rw [main_exporter_error env e hj] at htp
      simp at htp
    | none =>
      obtain ⟨post, hp, _, hn⟩ := main_calls_started env hj
      rw [hp, List.mem_append] at htp
      rcases htp with htp | htp
      · simpa [startupCalls] using htp
      · exact absurd htp (hn tp)
  · intro hgo
    cases hj : env.jaegerNew JaegerURI with
    | some e =>
      rw [main_exporter_error env e hj] at hgo
      simp at hgo
    | none =>
      obtain ⟨post, hp, hc, _⟩ := main_calls_started env hj
      refine ⟨[.jaegerNew JaegerURI, .newTracerProvider (mainProvider env)],
        [.signalNotify, .goAppRun] ++ post, ?_, by simp, by simp, ?_⟩
      · rw [hp]; simp [startupCalls]
      · rw [hp, List.countP_append, hc]
        simp [startupCalls, List.countP_cons, isSetTracerProvider]

/-! ## The batching span processor: what reaches `export` -/

theorem onSpanEnd_step (p : BatchSpanProcessor) (s : Span) (hs : p.shutDown = false) :
    onSpanEnd p s =
      if p.maxExportBatchSize ≤ p.queue.length + 1 then
        { p with queue := [], exported := p.exported ++ [p.queue ++ [s]] }
      else { p with queue := p.queue ++ [s] } := by
  simp [onSpanEnd, flush, hs]

theorem foldl_onSpanEnd (spans : List Span) :
    ∀ p : BatchSpanProcessor, p.shutDown = false →
      p.queue.length < p.maxExportBatchSize →
      ∃ news : List (List Span),
        (spans.foldl onSpanEnd p).shutDown = false ∧
        (spans.foldl onSpanEnd p).queue.length < p.maxExportBatchSize ∧
        (spans.foldl onSpanEnd p).exported = p.exported ++ news ∧
        (∀ b ∈ news, b.length = p.maxExportBatchSize) ∧
        news.flatten ++ (spans.foldl onSpanEnd p).queue = p.queue ++ spans := by
  induction spans with
  | nil =>
    intro p hs hq
    exact ⟨[], by simpa using hs, by simpa using hq, by simp, by simp, by simp⟩
  | cons s rest ih =>
    intro p hs hq
    rw [List.foldl_cons, onSpanEnd_step p s hs]
    by_cases hfull : p.maxExportBatchSize ≤ p.queue.length + 1
    · rw [if_pos hfull]
      obtain ⟨news, h1, h2, h3, h4, h5⟩ :=
        ih { p with queue := [], exported := p.exported ++ [p.queue ++ [s]] } hs
          (by simp; omega)
      refine ⟨(p.queue ++ [s]) :: news, h1, h2, ?_, ?_, ?_⟩
      · rw [h3]; simp
      · intro b hb
        rcases List.mem_cons.mp hb with hb | hb
        · subst hb
          simp
          omega
        · exact h4 b hb
      · simp only [List.flatten_cons, List.append_assoc]
        rw [h5]
        simp
    · rw [if_neg hfull]
      obtain ⟨news, h1, h2, h3, h4, h5⟩ :=
        ih { p with queue := p.queue ++ [s] } hs (by simp; omega)
      refine ⟨news, h1, h2, h3, h4, ?_⟩
      rw [h5]
      simp

theorem exportCalls_eq (m : Nat) (spans : List Span) (hm : 0 < m) :
    ∃ (news : List (List Span)) (q : List Span),
      exportCalls m spans = news ++ (if q.isEmpty then [] else [q]) ∧
      (∀ b ∈ news, b.length = m) ∧ q.length < m ∧ news.flatten ++ q = spans := by
  obtain ⟨news, h1, h2, h3, h4, h5⟩ :=
    foldl_onSpanEnd spans (NewBatchSpanProcessor m) rfl (by simpa [NewBatchSpanProcessor] using hm)
  have hx : (NewBatchSpanProcessor m).exported = [] := rfl
  have hy : (NewBatchSpanProcessor m).queue = [] := rfl
  rw [hx, List.nil_append] at h3
  rw [hy, List.nil_append] at h5
  refine ⟨news, (spans.foldl onSpanEnd (NewBatchSpanProcessor m)).queue, ?_, h4, h2, h5⟩
  unfold exportCalls shutdown flush
  generalize List.foldl onSpanEnd (NewBatchSpanProcessor m) spans = P at h1 h3 ⊢
  cases hq : P.queue with
  | nil => simp [h1, h3, hq]
  | cons a rest => simp [h1, h3, hq]

/-- C8: for every sequence of ended spans and maximum batch size `m > 0`
(no overflow drop, no time-based trigger), the batches passed to `export`,
concatenated in order, are exactly the ended spans in end order; every batch
but the last has exactly `m` spans; every batch has between 1 and `m` spans;
and for `m = 2` and spans S1..S5 the export calls are S1,S2 then S3,S4 then
S5. -/
theorem batch_exports_each_span_once (m : Nat) (spans : List Span) (hm : 0 < m) :
    (exportCalls m spans).flatten = spans ∧
    (∀ b ∈ (exportCalls m spans).dropLast, b.length = m) ∧
    (∀ b ∈ exportCalls m spans, 0 < b.length ∧ b.length ≤ m) ∧
    exportCalls 2 [spanNamed "S1", spanNamed "S2", spanNamed "S3", spanNamed "S4",
        spanNamed "S5"] =
      [[spanNamed "S1", spanNamed "S2"], [spanNamed "S3", spanNamed "S4"],
       [spanNamed "S5"]] := by
  obtain ⟨news, q, he, hn, hq, hf⟩ := exportCalls_eq m spans hm
  refine ⟨?_, ?_, ?_, by decide⟩
  · rw [he]
    cases q with
    | nil => simpa using hf
    | cons a rest => simpa using hf
  · intro b hb
    rw [he] at hb
    cases q with
    | nil =>
      simp at hb
      exact hn b (List.mem_of_mem_dropLast hb)
    | cons a rest =>
      simp only [List.isEmpty_cons, Bool.false_eq_true, if_false, List.dropLast_concat] at hb
      exact hn b hb
  · intro b hb
    rw [he] at hb
    cases q with
    | nil =>
      simp at hb
      have := hn b hb
      omega
    | cons a rest =>
      simp only [List.isEmpty_cons, Bool.false_eq_true, if_false, List.mem_append,
        List.mem_singleton] at hb
      rcases hb with hb | hb
      · have := hn b hb
        omega
      · subst hb
        simp at hq ⊢
        omega

/-- Witness for `batch_exports_each_span_once`: four spans and batch size 3
give one full batch and one batch with the last span. -/
theorem batch_exports_each_span_once_witness :
    0 < 3 ∧
    (exportCalls 3 [spanNamed "a", spanNamed "b", spanNamed "c", spanNamed "d"]).flatten =
      [spanNamed "a", spanNamed "b", spanNamed "c", spanNamed "d"] :=
  ⟨by decide,
   (batch_exports_each_span_once 3
      [spanNamed "a", spanNamed "b", spanNamed "c", spanNamed "d"] (by decide)).1⟩

end OtelDemo
